import Mathlib

/-!
Shallow embedding of `src/train.py` (class `Trainer`), a univariate
linear-regression trainer: feature normalization, batch gradient descent
with a per-component convergence test, and a grid search over
(learning rate, convergence threshold) candidates.

Python floats are modelled as rationals (`ℚ`); `float("inf")` used as the
initial `best_iterations` is modelled as `⊤ : WithTop ℕ`; pandas columns
are lists of rationals, aligned by position.  Division by zero (which in
pandas/NumPy silently yields `inf`/`NaN` rather than raising) is modelled
by `ℚ`'s total division, which silently yields `0`; in both settings the
computation continues without any error being surfaced.
-/

/-- A pandas DataFrame as used by `train.py`: the `km` and `price` columns
loaded from `data.csv`, plus the derived `normalized_km` column that
`Trainer.__init__` adds. -/
structure DataFrame where
  km : List ℚ
  price : List ℚ
  normalized_km : List ℚ
deriving DecidableEq, Repr

/-- `np.mean` / pandas `.mean()` over a column: sum divided by length. -/
def npMean (xs : List ℚ) : ℚ :=
  xs.sum / (xs.length : ℚ)

/-- `np.abs` on a scalar. -/
def npAbs (q : ℚ) : ℚ :=
  if q < 0 then -q else q

/-- Sample variance with ddof = 1, the square of pandas `.std()`:
`Σ (x - mean)² / (n - 1)`. -/
def sampleVar (xs : List ℚ) : ℚ :=
  ((xs.map (fun x => (x - npMean xs) ^ 2)).sum) / ((xs.length - 1 : ℕ) : ℚ)

/-- Rational stand-in for the real square root taken by pandas `.std()`:
exact whenever numerator and denominator are perfect squares; in
particular `ratSqrt 0 = 0`, the only case this development evaluates. -/
def ratSqrt (q : ℚ) : ℚ :=
  ((Nat.sqrt q.num.toNat : ℚ)) / ((Nat.sqrt q.den : ℚ))

/-- The state of the Python `Trainer` object: the loaded (and normalized)
sample set, the normalization statistics, and the best-result state of the
hyperparameter search (`best_iterations` starts at `float("inf")`,
modelled as `⊤`). -/
structure Trainer where
  mileages : DataFrame
  mean_km : ℚ
  std_km : ℚ
  best_learning_rate : Option ℚ
  best_convergence_threshold : Option ℚ
  best_iterations : WithTop ℕ
  best_theta : Option (ℚ × ℚ)
deriving DecidableEq, Repr

/-- `Trainer.normalize_mileage`: `(mileage - self.mean_km) / self.std_km`. -/
def Trainer.normalize_mileage (t : Trainer) (mileage : ℚ) : ℚ :=
  (mileage - t.mean_km) / t.std_km

/-- `Trainer.__init__`: load the data, compute `mean_km` and `std_km`,
add the `normalized_km` column, and initialize the best-result state with
`best_iterations = float("inf")` and no theta.  Note: the constructor
performs no variance check of any kind. -/
def Trainer.init (data : DataFrame) : Trainer :=
  let t0 : Trainer :=
    { mileages := data
      mean_km := npMean data.km
      std_km := ratSqrt (sampleVar data.km)
      best_learning_rate := none
      best_convergence_threshold := none
      best_iterations := ⊤
      best_theta := none }
  { t0 with
      mileages := { data with normalized_km := data.km.map t0.normalize_mileage } }

/-- `Trainer.estimate_price`: `theta[0] + theta[1] * normalized_mileage`. -/
def estimate_price (normalized_mileage : ℚ) (theta : ℚ × ℚ) : ℚ :=
  theta.1 + theta.2 * normalized_mileage

/-- `Trainer.convergence_threshold_reached`: both components' absolute
deltas must independently be below the threshold. -/
def convergence_threshold_reached (new_theta theta : ℚ × ℚ)
    (convergence_threshold : ℚ) : Prop :=
  npAbs (new_theta.1 - theta.1) < convergence_threshold ∧
    npAbs (new_theta.2 - theta.2) < convergence_threshold

instance (new_theta theta : ℚ × ℚ) (ct : ℚ) :
    Decidable (convergence_threshold_reached new_theta theta ct) := by
  unfold convergence_threshold_reached
  infer_instance

/-- `Trainer.calculate_gradient`: `gradient[0] = np.mean(errors)`,
`gradient[1] = np.mean(errors * self.mileages["normalized_km"])` (the
elementwise product of two aligned columns). -/
def calculate_gradient (t : Trainer) (errors : List ℚ) : ℚ × ℚ :=
  (npMean errors, npMean (List.zipWith (· * ·) errors t.mileages.normalized_km))

/-- `Trainer.calculate_new_theta`:
`new_theta = theta - learning_rate * gradient` componentwise. -/
def calculate_new_theta (theta gradient_theta : ℚ × ℚ)
    (learning_rate : ℚ) : ℚ × ℚ :=
  (theta.1 - learning_rate * gradient_theta.1,
    theta.2 - learning_rate * gradient_theta.2)

/-- Loop body of `Trainer.gradient_descent`, counting down the remaining
iterations of `range(iterations)` while `i` counts the steps already
taken.  When the budget runs out, `i` equals `iterations` and Python's
`return iterations, theta` is `(i, theta)`. -/
def gradient_descent_aux (t : Trainer) (prices : List ℚ)
    (learning_rate convergence : ℚ) (theta : ℚ × ℚ) (i : ℕ) :
    ℕ → ℕ × (ℚ × ℚ)
  | 0 => (i, theta)
  | remaining + 1 =>
    let predictions := t.mileages.normalized_km.map
      (fun nm => estimate_price nm theta)
    let errors := List.zipWith (· - ·) predictions prices
    let grad_t := calculate_gradient t errors
    let new_t := calculate_new_theta theta grad_t learning_rate
    if convergence_threshold_reached new_t theta convergence then
      (i + 1, theta)
    else
      gradient_descent_aux t prices learning_rate convergence new_t (i + 1)
        remaining

/-- `Trainer.gradient_descent`: start from `theta = [0, 0]` and iterate;
predictions are computed from the trainer's stored `normalized_km`
column, while only the `price` column of the `mileages` argument is
read. -/
def gradient_descent (t : Trainer) (mileages : DataFrame)
    (learning_rate convergence : ℚ) (iterations : ℕ := 500) : ℕ × (ℚ × ℚ) :=
  gradient_descent_aux t mileages.price learning_rate convergence (0, 0) 0
    iterations

/-- `Trainer.update_hyperparameters`: overwrite all four best-result
fields together. -/
def update_hyperparameters (t : Trainer) (iters : ℕ)
    (learning_rate convergence : ℚ) (theta : ℚ × ℚ) : Trainer :=
  { t with
      best_iterations := (iters : WithTop ℕ)
      best_learning_rate := some learning_rate
      best_convergence_threshold := some convergence
      best_theta := some theta }

/-- The JSON document written by `Trainer.model_to_json`. -/
structure ModelJson where
  theta_0 : ℚ
  theta_1 : ℚ
  mean_km : ℚ
  std_km : ℚ
deriving DecidableEq, Repr

/-- `Trainer.model_to_json`: serialize `best_theta` and the normalization
statistics.  `none` models the Python `TypeError` raised by
`self.best_theta[0]` when `best_theta` is still `None`. -/
def model_to_json (t : Trainer) : Option ModelJson :=
  t.best_theta.map fun th =>
    { theta_0 := th.1, theta_1 := th.2, mean_km := t.mean_km, std_km := t.std_km }

/-- Body of the grid-search loops in `Trainer.hyperparameter_tuning`: run
`gradient_descent` with the default budget of 500 and update the
best-result state when the returned iteration count is strictly below the
current best. -/
def tuningStep (mileages : DataFrame) (t : Trainer) (c : ℚ × ℚ) : Trainer :=
  let r := gradient_descent t mileages c.1 c.2 500
  if (r.1 : WithTop ℕ) < t.best_iterations then
    update_hyperparameters t r.1 c.1 c.2 r.2
  else
    t

/-- `Trainer.hyperparameter_tuning`: learning rates as the outer loop,
convergence thresholds as the inner loop, both in the supplied order;
afterwards `model_to_json` runs and `best_theta` is returned. -/
def hyperparameter_tuning (t : Trainer) (mileages : DataFrame)
    (learning_rates convergence_thresholds : List ℚ) :
    Trainer × Option ModelJson × Option (ℚ × ℚ) :=
  let t' := learning_rates.foldl
    (fun tr lr => convergence_thresholds.foldl
      (fun tr2 ct => tuningStep mileages tr2 (lr, ct)) tr)
    t
  (t', model_to_json t', t'.best_theta)

/-- The cartesian product of the candidate lists in evaluation order:
learning rates outer, thresholds inner. -/
def gridCandidates (learning_rates convergence_thresholds : List ℚ) :
    List (ℚ × ℚ) :=
  learning_rates.flatMap fun lr =>
    convergence_thresholds.map fun ct => (lr, ct)

/-- One abstract update step of the optimizer: the `new_theta` computed by
one pass of the `gradient_descent` loop body from `theta`. -/
def gdStep (t : Trainer) (prices : List ℚ) (learning_rate : ℚ)
    (theta : ℚ × ℚ) : ℚ × ℚ :=
  calculate_new_theta theta
    (calculate_gradient t
      (List.zipWith (· - ·)
        (t.mileages.normalized_km.map (fun nm => estimate_price nm theta))
        prices))
    learning_rate

/-- The sequence of theta values the optimizer visits: `theta = [0,0]`
followed by repeated `gdStep`s (the sequence itself is independent of the
convergence threshold). -/
def thetaSeq (t : Trainer) (prices : List ℚ) (learning_rate : ℚ) :
    ℕ → ℚ × ℚ
  | 0 => (0, 0)
  | n + 1 => gdStep t prices learning_rate (thetaSeq t prices learning_rate n)

/-- The convergence test holds at step `j`: the update from the `j`-th to
the `(j+1)`-th theta has both components' deltas below the threshold. -/
def convAt (t : Trainer) (prices : List ℚ) (learning_rate convergence : ℚ)
    (j : ℕ) : Prop :=
  convergence_threshold_reached (thetaSeq t prices learning_rate (j + 1))
    (thetaSeq t prices learning_rate j) convergence

instance (t : Trainer) (prices : List ℚ) (learning_rate convergence : ℚ) :
    DecidablePred (convAt t prices learning_rate convergence) := by
  intro j
  unfold convAt
  infer_instance

/-- Unfolding lemma: one pass of the `gradient_descent` loop body is a
`gdStep` followed by the convergence test. -/
lemma gradient_descent_aux_succ (t : Trainer) (prices : List ℚ)
    (learning_rate convergence : ℚ) (theta : ℚ × ℚ) (i r : ℕ) :
    gradient_descent_aux t prices learning_rate convergence theta i (r + 1) =
      if convergence_threshold_reached (gdStep t prices learning_rate theta)
          theta convergence then
        (i + 1, theta)
      else
        gradient_descent_aux t prices learning_rate convergence
          (gdStep t prices learning_rate theta) (i + 1) r := rfl

/-- The best-result state reached after the candidate `c` wins a
comparison against trainer `t`: all four best fields replaced together
with the outcome of `c`'s `gradient_descent` run, everything else kept. -/
def stateOf (t : Trainer) (m : DataFrame) (c : ℚ × ℚ) : Trainer :=
  update_hyperparameters t (gradient_descent t m c.1 c.2 500).1 c.1 c.2
    (gradient_descent t m c.1 c.2 500).2

/-- A one-sample trainer (normalized mileage `0`, price `1`) used for the
concrete evaluations: each optimizer step halves the distance of
`theta[0]` to `1`, so the delta at step `j` is `2 ^ (-(j+1))`. -/
def demoTrainer : Trainer :=
  { mileages := { km := [1], price := [1], normalized_km := [0] }
    mean_km := 1
    std_km := 0
    best_learning_rate := none
    best_convergence_threshold := none
    best_iterations := ⊤
    best_theta := none }

/-- A trainer constructed from a degenerate dataset: two identical
samples, hence fewer than 2 distinct samples and zero mileage variance. -/
def degenerateTrainer : Trainer :=
  Trainer.init { km := [5, 5], price := [10, 10], normalized_km := [] }

/-- A raw dataset whose mileage column has zero variance. -/
def zeroVarianceFrame : DataFrame :=
  { km := [42, 42], price := [1, 2], normalized_km := [] }

/-- Monotonicity of the convergence test in the threshold. -/
lemma convergence_threshold_reached_mono {a b : ℚ × ℚ} {ct ct' : ℚ}
    (h : ct' ≤ ct) (hc : convergence_threshold_reached a b ct') :
    convergence_threshold_reached a b ct :=
  ⟨lt_of_lt_of_le hc.1 h, lt_of_lt_of_le hc.2 h⟩

/-- If the convergence test first fires at step `j`, the loop returns
`(j + 1, thetaSeq j)`: the pre-update theta together with `i + 1`. -/
lemma gradient_descent_aux_finds_first (t : Trainer) (prices : List ℚ)
    (learning_rate convergence : ℚ) :
    ∀ (r i j : ℕ), i ≤ j → j < i + r →
      convAt t prices learning_rate convergence j →
      (∀ k, i ≤ k → k < j → ¬ convAt t prices learning_rate convergence k) →
      gradient_descent_aux t prices learning_rate convergence
          (thetaSeq t prices learning_rate i) i r =
        (j + 1, thetaSeq t prices learning_rate j) := by
  intro r
  induction r with
  | zero => intro i j hij hlt _ _; omega
  | succ r ih =>
    intro i j hij hlt hc hmin
    rw [gradient_descent_aux_succ]
    by_cases hcase : convAt t prices learning_rate convergence i
    · have hij' : i = j := by
        by_contra hne
        exact hmin i le_rfl (lt_of_le_of_ne hij hne) hcase
      subst hij'
      have hcase' : convergence_threshold_reached
          (gdStep t prices learning_rate (thetaSeq t prices learning_rate i))
          (thetaSeq t prices learning_rate i) convergence := hcase
      rw [if_pos hcase']
    · have hcase' : ¬ convergence_threshold_reached
          (gdStep t prices learning_rate (thetaSeq t prices learning_rate i))
          (thetaSeq t prices learning_rate i) convergence := fun h => hcase h
      rw [if_neg hcase']
      have hlt' : i < j := lt_of_le_of_ne hij (fun h => hcase (h ▸ hc))
      have hstep : gdStep t prices learning_rate (thetaSeq t prices learning_rate i) =
          thetaSeq t prices learning_rate (i + 1) := rfl
      rw [hstep]
      exact ih (i + 1) j hlt' (by omega) hc (fun k hk1 hk2 => hmin k (by omega) hk2)

/-- If the convergence test never fires during the budget, the loop runs
the budget out and returns the last updated theta. -/
lemma gradient_descent_aux_no_conv (t : Trainer) (prices : List ℚ)
    (learning_rate convergence : ℚ) :
    ∀ (r i : ℕ),
      (∀ k, i ≤ k → k < i + r → ¬ convAt t prices learning_rate convergence k) →
      gradient_descent_aux t prices learning_rate convergence
          (thetaSeq t prices learning_rate i) i r =
        (i + r, thetaSeq t prices learning_rate (i + r)) := by
  intro r
  induction r with
  | zero => intro i _; rfl
  | succ r ih =>
    intro i hmin
    have hcase' : ¬ convergence_threshold_reached
        (gdStep t prices learning_rate (thetaSeq t prices learning_rate i))
        (thetaSeq t prices learning_rate i) convergence :=
      fun h => hmin i le_rfl (by omega) h
    rw [gradient_descent_aux_succ, if_neg hcase']
    have hstep : gdStep t prices learning_rate (thetaSeq t prices learning_rate i) =
        thetaSeq t prices learning_rate (i + 1) := rfl
    rw [hstep, ih (i + 1) (fun k hk1 hk2 => hmin k (by omega) (by omega))]
    rw [show i + 1 + r = i + (r + 1) from by omega]

/-- The returned iteration count always lies between the count already
performed (plus one, when any budget remains) and the total budget. -/
lemma gradient_descent_aux_bounds (t : Trainer) (prices : List ℚ)
    (learning_rate convergence : ℚ) :
    ∀ (r i : ℕ) (theta : ℚ × ℚ),
      i ≤ (gradient_descent_aux t prices learning_rate convergence theta i r).1 ∧
      (gradient_descent_aux t prices learning_rate convergence theta i r).1 ≤ i + r ∧
      (1 ≤ r →
        i + 1 ≤ (gradient_descent_aux t prices learning_rate convergence theta i r).1) := by
  intro r
  induction r with
  | zero => intro i theta; exact ⟨le_rfl, le_rfl, by omega⟩
  | succ r ih =>
    intro i theta
    rw [gradient_descent_aux_succ]
    by_cases hcase : convergence_threshold_reached
        (gdStep t prices learning_rate theta) theta convergence
    · rw [if_pos hcase]
      exact ⟨Nat.le_succ i, by show i + 1 ≤ i + (r + 1); omega, fun _ => le_rfl⟩
    · rw [if_neg hcase]
      obtain ⟨h1, h2, _⟩ := ih (i + 1) (gdStep t prices learning_rate theta)
      exact ⟨by omega, by omega, fun _ => h1⟩

/-- C1: for every learning rate, convergence threshold and iteration
budget, `gradient_descent` declares convergence at the first step `j` at
which both components of the theta delta are independently below the
threshold, and returns `(j + 1, thetaSeq j)` — the pre-update theta that
produced the below-threshold delta, not the updated one. -/
theorem gradient_descent_first_convergence (t : Trainer) (m : DataFrame)
    (learning_rate convergence : ℚ) (iterations j : ℕ)
    (hj : j < iterations)
    (hc : convAt t m.price learning_rate convergence j)
    (hmin : ∀ k < j, ¬ convAt t m.price learning_rate convergence k) :
    gradient_descent t m learning_rate convergence iterations =
      (j + 1, thetaSeq t m.price learning_rate j) :=
  gradient_descent_aux_finds_first t m.price learning_rate convergence
    iterations 0 j (Nat.zero_le j) (by omega) hc (fun k _ hk => hmin k hk)

/-- Witness for C1 on a concrete run: one sample with normalized mileage
`0` and price `1`, learning rate `1/2`, threshold `1/3`.  The deltas are
`1/2` at step 0 and `1/4` at step 1, so the run converges first at step 1
and returns `(2, (1/2, 0))`. -/
theorem gradient_descent_first_convergence_witness :
    gradient_descent demoTrainer demoTrainer.mileages (1/2) (1/3) 500 =
      (1 + 1, thetaSeq demoTrainer demoTrainer.mileages.price (1/2) 1) := by
  apply gradient_descent_first_convergence _ _ _ _ 500 1 (by omega)
  · show convergence_threshold_reached
        (thetaSeq demoTrainer demoTrainer.mileages.price (1/2) 2)
        (thetaSeq demoTrainer demoTrainer.mileages.price (1/2) 1) (1/3)
    norm_num [thetaSeq, gdStep, convergence_threshold_reached, npAbs,
      calculate_new_theta, calculate_gradient, estimate_price, npMean,
      demoTrainer]
  · intro k hk
    interval_cases k
    show ¬ convergence_threshold_reached
        (thetaSeq demoTrainer demoTrainer.mileages.price (1/2) 1)
        (thetaSeq demoTrainer demoTrainer.mileages.price (1/2) 0) (1/3)
    norm_num [thetaSeq, gdStep, convergence_threshold_reached, npAbs,
      calculate_new_theta, calculate_gradient, estimate_price, npMean,
      demoTrainer]

/-- C4: for every hyperparameter combination and positive budget, the
optimizer terminates within the budget, returning an iteration count `k`
with `1 ≤ k ≤ iterations`; when no step satisfies the convergence test it
returns `(iterations, theta)` with `theta` the last updated value. -/
theorem gradient_descent_terminates_within_budget (t : Trainer)
    (m : DataFrame) (learning_rate convergence : ℚ) (iterations : ℕ)
    (hpos : 1 ≤ iterations) :
    1 ≤ (gradient_descent t m learning_rate convergence iterations).1 ∧
    (gradient_descent t m learning_rate convergence iterations).1 ≤ iterations ∧
    ((∀ j < iterations, ¬ convAt t m.price learning_rate convergence j) →
      gradient_descent t m learning_rate convergence iterations =
        (iterations, thetaSeq t m.price learning_rate iterations)) := by
  unfold gradient_descent
  obtain ⟨h1, h2, h3⟩ := gradient_descent_aux_bounds t m.price learning_rate
    convergence iterations 0 (0, 0)
  refine ⟨?_, ?_, ?_⟩
  · have := h3 hpos; omega
  · omega
  · intro hnc
    have h := gradient_descent_aux_no_conv t m.price learning_rate convergence
      iterations 0 (fun k _ hk2 => hnc k (by omega))
    rw [Nat.zero_add] at h
    exact h

/-- Witness for C4 at a concrete input: the demo trainer with a budget of
one iteration. -/
theorem gradient_descent_terminates_within_budget_witness :
    1 ≤ (gradient_descent demoTrainer demoTrainer.mileages (1/2) (1/3) 1).1 ∧
    (gradient_descent demoTrainer demoTrainer.mileages (1/2) (1/3) 1).1 ≤ 1 ∧
    ((∀ j < 1, ¬ convAt demoTrainer demoTrainer.mileages.price (1/2) (1/3) j) →
      gradient_descent demoTrainer demoTrainer.mileages (1/2) (1/3) 1 =
        (1, thetaSeq demoTrainer demoTrainer.mileages.price (1/2) 1)) :=
  gradient_descent_terminates_within_budget demoTrainer demoTrainer.mileages
    (1/2) (1/3) 1 (by omega)

/-- C8: for a fixed learning rate and sample set, with the iteration cap
high enough for the tighter run to converge, tightening the convergence
threshold from `ct` to `ct' ≤ ct` never decreases the returned iteration
count. -/
theorem gradient_descent_threshold_monotone (t : Trainer) (m : DataFrame)
    (learning_rate : ℚ) (ct ct' : ℚ) (iterations : ℕ)
    (hle : ct' ≤ ct)
    (hconv : ∃ j, j < iterations ∧ convAt t m.price learning_rate ct' j) :
    (gradient_descent t m learning_rate ct iterations).1 ≤
      (gradient_descent t m learning_rate ct' iterations).1 := by
  obtain ⟨j0, hj0, hcj0⟩ := hconv
  have hmono : ∀ k, convAt t m.price learning_rate ct' k →
      convAt t m.price learning_rate ct k :=
    fun k hk => convergence_threshold_reached_mono hle hk
  have hex' : ∃ j, convAt t m.price learning_rate ct' j := ⟨j0, hcj0⟩
  have hex : ∃ j, convAt t m.price learning_rate ct j := ⟨j0, hmono j0 hcj0⟩
  have hfind_le : Nat.find hex ≤ Nat.find hex' :=
    Nat.find_min' hex (hmono _ (Nat.find_spec hex'))
  have hfind'_le : Nat.find hex' ≤ j0 := Nat.find_min' hex' hcj0
  have hgd' : gradient_descent t m learning_rate ct' iterations =
      (Nat.find hex' + 1, thetaSeq t m.price learning_rate (Nat.find hex')) :=
    gradient_descent_first_convergence t m learning_rate ct' iterations _
      (by omega) (Nat.find_spec hex') (fun k hk => Nat.find_min hex' hk)
  have hgd : gradient_descent t m learning_rate ct iterations =
      (Nat.find hex + 1, thetaSeq t m.price learning_rate (Nat.find hex)) :=
    gradient_descent_first_convergence t m learning_rate ct iterations _
      (by omega) (Nat.find_spec hex) (fun k hk => Nat.find_min hex hk)
  rw [hgd, hgd']
  simpa using hfind_le

/-- Witness for C8 at a concrete input: thresholds `1/3 ≤ 1`; with the
demo trainer the looser run converges at step 0 and the tighter one at
step 1. -/
theorem gradient_descent_threshold_monotone_witness :
    (gradient_descent demoTrainer demoTrainer.mileages (1/2) 1 500).1 ≤
      (gradient_descent demoTrainer demoTrainer.mileages (1/2) (1/3) 500).1 := by
  apply gradient_descent_threshold_monotone demoTrainer demoTrainer.mileages
    (1/2) 1 (1/3) 500 (by norm_num)
  refine ⟨1, by omega, ?_⟩
  show convergence_threshold_reached
      (thetaSeq demoTrainer demoTrainer.mileages.price (1/2) 2)
      (thetaSeq demoTrainer demoTrainer.mileages.price (1/2) 1) (1/3)
  norm_num [thetaSeq, gdStep, convergence_threshold_reached, npAbs,
    calculate_new_theta, calculate_gradient, estimate_price, npMean,
    demoTrainer]

/-- A list's sum written as an indexed sum over its positions. -/
lemma list_sum_eq_range_getD (l : List ℚ) :
    l.sum = ∑ i in Finset.range l.length, l.getD i 0 := by
  induction l with
  | nil => simp
  | cons x l ih =>
    rw [List.sum_cons, ih, List.length_cons, Finset.sum_range_succ']
    simp [add_comm]

/-- Positionwise reading of the elementwise product of two columns. -/
lemma zipWith_mul_getD : ∀ (a b : List ℚ) (i : ℕ), i < a.length → i < b.length →
    (List.zipWith (· * ·) a b).getD i 0 = a.getD i 0 * b.getD i 0 := by
  intro a
  induction a with
  | nil => intro b i h _; simp at h
  | cons x a ih =>
    intro b i h1 h2
    cases b with
    | nil => simp at h2
    | cons y b =>
      cases i with
      | zero => simp
      | succ i => simpa using ih b i (by simpa using h1) (by simpa using h2)

/-- C2: for every error vector aligned with the stored normalized mileage
column, `calculate_gradient` returns exactly
`[mean(errors), mean(errors * normalized_mileage)]`, both means taken
over the entire sample set. -/
theorem calculate_gradient_batch_means (t : Trainer) (errors : List ℚ)
    (hlen : errors.length = t.mileages.normalized_km.length) :
    (calculate_gradient t errors).1 =
      (∑ i in Finset.range errors.length, errors.getD i 0) /
        (errors.length : ℚ) ∧
    (calculate_gradient t errors).2 =
      (∑ i in Finset.range errors.length,
          errors.getD i 0 * t.mileages.normalized_km.getD i 0) /
        (errors.length : ℚ) := by
  constructor
  · show npMean errors = _
    rw [npMean, list_sum_eq_range_getD]
  · show npMean (List.zipWith (· * ·) errors t.mileages.normalized_km) = _
    have hlen2 : (List.zipWith (· * ·) errors t.mileages.normalized_km).length =
        errors.length := by
      rw [List.length_zipWith, ← hlen, min_self]
    rw [npMean, list_sum_eq_range_getD, hlen2]
    congr 1
    refine Finset.sum_congr rfl fun i hi => ?_
    have hi' : i < errors.length := Finset.mem_range.mp hi
    exact zipWith_mul_getD errors t.mileages.normalized_km i hi' (hlen ▸ hi')

/-- Witness for C2 at a concrete input: one error against the demo
trainer's one-sample normalized column. -/
theorem calculate_gradient_batch_means_witness :
    (calculate_gradient demoTrainer [2]).1 =
      (∑ i in Finset.range (List.length [(2 : ℚ)]), [(2 : ℚ)].getD i 0) /
        ((List.length [(2 : ℚ)]) : ℚ) ∧
    (calculate_gradient demoTrainer [2]).2 =
      (∑ i in Finset.range (List.length [(2 : ℚ)]),
          [(2 : ℚ)].getD i 0 * demoTrainer.mileages.normalized_km.getD i 0) /
        ((List.length [(2 : ℚ)]) : ℚ) :=
  calculate_gradient_batch_means demoTrainer [2] rfl

/-- C10: `gradient_descent` reads its DataFrame argument only through the
`price` column; two arguments agreeing there give identical results on
the same trainer, because predictions and the gradient come from the
trainer's stored `normalized_km` column. -/
theorem gradient_descent_depends_only_on_price (t : Trainer)
    (m₁ m₂ : DataFrame) (h : m₁.price = m₂.price)
    (learning_rate convergence : ℚ) (iterations : ℕ) :
    gradient_descent t m₁ learning_rate convergence iterations =
      gradient_descent t m₂ learning_rate convergence iterations := by
  unfold gradient_descent
  rw [h]

/-- Witness for C10 at a concrete input: two frames with different `km`
and `normalized_km` columns but the same prices. -/
theorem gradient_descent_depends_only_on_price_witness :
    gradient_descent demoTrainer
        { km := [1], price := [5], normalized_km := [9] } (1/2) (1/3) 500 =
      gradient_descent demoTrainer
        { km := [2], price := [5], normalized_km := [0] } (1/2) (1/3) 500 :=
  gradient_descent_depends_only_on_price demoTrainer
    { km := [1], price := [5], normalized_km := [9] }
    { km := [2], price := [5], normalized_km := [0] } rfl (1/2) (1/3) 500

/-- A single grid-search step never touches the sample set or the
normalization statistics. -/
lemma tuningStep_preserves_data (m : DataFrame) (tr : Trainer) (c : ℚ × ℚ) :
    (tuningStep m tr c).mileages = tr.mileages ∧
    (tuningStep m tr c).mean_km = tr.mean_km ∧
    (tuningStep m tr c).std_km = tr.std_km := by
  by_cases h : ((gradient_descent tr m c.1 c.2 500).1 : WithTop ℕ) <
      tr.best_iterations <;>
    simp [tuningStep, update_hyperparameters, h]

/-- Folding grid-search steps never touches the sample set or the
normalization statistics. -/
lemma foldl_tuningStep_preserves_data (m : DataFrame) :
    ∀ (L : List (ℚ × ℚ)) (tr : Trainer),
      ((L.foldl (tuningStep m) tr).mileages = tr.mileages ∧
        (L.foldl (tuningStep m) tr).mean_km = tr.mean_km ∧
        (L.foldl (tuningStep m) tr).std_km = tr.std_km) := by
  intro L
  induction L with
  | nil => intro tr; exact ⟨rfl, rfl, rfl⟩
  | cons c L ih =>
    intro tr
    obtain ⟨h1, h2, h3⟩ := ih (tuningStep m tr c)
    obtain ⟨g1, g2, g3⟩ := tuningStep_preserves_data m tr c
    exact ⟨h1.trans g1, h2.trans g2, h3.trans g3⟩

/-- The nested loops of `hyperparameter_tuning` are the fold of
`tuningStep` over the cartesian product in evaluation order. -/
lemma nested_foldl_eq_grid (m : DataFrame) :
    ∀ (lrs : List ℚ) (cts : List ℚ) (t : Trainer),
      lrs.foldl
          (fun tr lr => cts.foldl
            (fun tr2 ct => tuningStep m tr2 (lr, ct)) tr) t =
        (gridCandidates lrs cts).foldl (tuningStep m) t := by
  intro lrs
  induction lrs with
  | nil => intro cts t; rfl
  | cons lr lrs ih =>
    intro cts t
    simp only [List.foldl_cons, gridCandidates, List.flatMap_cons,
      List.foldl_append, List.foldl_map]
    rw [ih cts]
    rfl

/-- The trainer returned by `hyperparameter_tuning`, as a flat fold over
the candidate grid. -/
lemma hyperparameter_tuning_fst (t : Trainer) (m : DataFrame)
    (lrs cts : List ℚ) :
    (hyperparameter_tuning t m lrs cts).1 =
      (gridCandidates lrs cts).foldl (tuningStep m) t := by
  unfold hyperparameter_tuning
  exact nested_foldl_eq_grid m lrs cts t

/-- C9: a whole `hyperparameter_tuning` sweep (and hence every
`gradient_descent` run inside it, each of which is embedded as a pure,
read-only function of the trainer) leaves the sample set — including its
`normalized_km` column — and the statistics `mean_km` and `std_km`
unchanged. -/
theorem hyperparameter_tuning_preserves_sample_set (t : Trainer)
    (m : DataFrame) (lrs cts : List ℚ) :
    (hyperparameter_tuning t m lrs cts).1.mileages = t.mileages ∧
    (hyperparameter_tuning t m lrs cts).1.mean_km = t.mean_km ∧
    (hyperparameter_tuning t m lrs cts).1.std_km = t.std_km := by
  rw [hyperparameter_tuning_fst]
  exact foldl_tuningStep_preserves_data m (gridCandidates lrs cts) t

/-- C5 (evaluation at the failing input): constructing the trainer on a
dataset whose mileage column has zero variance surfaces no error at all:
`__init__` is a total constructor that stores `std_km = 0` and silently
fills the `normalized_km` column with the results of dividing by zero
(`NaN` in pandas, `0` in this rational model) — there is no detection
before training. -/
theorem trainer_init_zero_variance_not_detected :
    (Trainer.init zeroVarianceFrame).std_km = 0 ∧
    (Trainer.init zeroVarianceFrame).mileages.normalized_km = [0, 0] := by
  constructor
  · show ratSqrt (sampleVar [42, 42]) = 0
    norm_num [sampleVar, npMean, ratSqrt]
  · show ([42, 42] : List ℚ).map _ = [0, 0]
    norm_num [zeroVarianceFrame, Trainer.normalize_mileage, sampleVar, npMean,
      ratSqrt]

/-- The second and third components returned by `hyperparameter_tuning`
are the export and the best theta of the returned trainer. -/
lemma hyperparameter_tuning_snd (t : Trainer) (m : DataFrame)
    (lrs cts : List ℚ) :
    (hyperparameter_tuning t m lrs cts).2.1 =
        model_to_json (hyperparameter_tuning t m lrs cts).1 ∧
      (hyperparameter_tuning t m lrs cts).2.2 =
        (hyperparameter_tuning t m lrs cts).1.best_theta :=
  ⟨rfl, rfl⟩

/-- The degenerate trainer's normalized column: dividing by the zero
standard deviation silently yields a defined column. -/
lemma degenerateTrainer_normalized_km :
    degenerateTrainer.mileages.normalized_km = [0, 0] := by
  show ([5, 5] : List ℚ).map _ = [0, 0]
  norm_num [degenerateTrainer, Trainer.init, Trainer.normalize_mileage,
    sampleVar, npMean, ratSqrt]

/-- First optimizer step on the degenerate dataset: theta moves from
`(0, 0)` to `(10, 0)`. -/
lemma degenerate_gdStep_zero :
    gdStep degenerateTrainer degenerateTrainer.mileages.price 1 (0, 0) =
      (10, 0) := by
  norm_num [gdStep, calculate_new_theta, calculate_gradient, estimate_price,
    npMean, degenerateTrainer_normalized_km,
    show degenerateTrainer.mileages.price = [10, 10] from rfl]

/-- Second optimizer step on the degenerate dataset: `(10, 0)` is a fixed
point. -/
lemma degenerate_gdStep_one :
    gdStep degenerateTrainer degenerateTrainer.mileages.price 1 (10, 0) =
      (10, 0) := by
  norm_num [gdStep, calculate_new_theta, calculate_gradient, estimate_price,
    npMean, degenerateTrainer_normalized_km,
    show degenerateTrainer.mileages.price = [10, 10] from rfl]

/-- The optimizer run on the degenerate dataset converges at the second
iteration without any error. -/
lemma degenerate_gradient_descent :
    gradient_descent degenerateTrainer degenerateTrainer.mileages 1 (1/10)
      500 = (2, (10, 0)) := by
  unfold gradient_descent
  rw [show (500 : ℕ) = 499 + 1 from rfl, gradient_descent_aux_succ,
    degenerate_gdStep_zero,
    if_neg (by norm_num [convergence_threshold_reached, npAbs] :
      ¬ convergence_threshold_reached ((10 : ℚ), (0 : ℚ)) (0, 0) (1/10))]
  rw [show (499 : ℕ) = 498 + 1 from rfl, gradient_descent_aux_succ,
    degenerate_gdStep_one,
    if_pos (by norm_num [convergence_threshold_reached, npAbs] :
      convergence_threshold_reached ((10 : ℚ), (0 : ℚ)) (10, 0) (1/10))]

/-- C6 (evaluation at the failing input): on a sample set with fewer than
2 distinct samples and nonempty candidate lists, no configuration error
is surfaced anywhere: the optimizer runs (twice through its loop), the
best-result state is updated from the run, and the model is exported. -/
theorem hyperparameter_tuning_no_config_check :
    (hyperparameter_tuning degenerateTrainer degenerateTrainer.mileages
        [1] [1/10]).1.best_iterations = ((2 : ℕ) : WithTop ℕ) ∧
    (hyperparameter_tuning degenerateTrainer degenerateTrainer.mileages
        [1] [1/10]).2.2 = some (10, 0) ∧
    (hyperparameter_tuning degenerateTrainer degenerateTrainer.mileages
        [1] [1/10]).2.1 =
      some { theta_0 := 10, theta_1 := 0, mean_km := 5, std_km := 0 } := by
  have htstep : tuningStep degenerateTrainer.mileages degenerateTrainer
      (1, 1/10) = update_hyperparameters degenerateTrainer 2 1 (1/10)
        (10, 0) := by
    unfold tuningStep
    dsimp only
    rw [degenerate_gradient_descent]
    have hcond : ((2 : ℕ) : WithTop ℕ) < degenerateTrainer.best_iterations := by
      show ((2 : ℕ) : WithTop ℕ) < ⊤
      exact_mod_cast WithTop.coe_lt_top (2 : ℕ)
    rw [if_pos hcond]
  have hfold : (hyperparameter_tuning degenerateTrainer
      degenerateTrainer.mileages [1] [1/10]).1 =
        update_hyperparameters degenerateTrainer 2 1 (1/10) (10, 0) := by
    rw [hyperparameter_tuning_fst]
    simp only [gridCandidates, List.flatMap_cons, List.map_cons, List.map_nil,
      List.flatMap_nil, List.append_nil, List.foldl_cons, List.foldl_nil]
    exact htstep
  refine ⟨?_, ?_, ?_⟩
  · rw [hfold]
    rfl
  · rw [(hyperparameter_tuning_snd degenerateTrainer degenerateTrainer.mileages
      [1] [1/10]).2, hfold]
    rfl
  · rw [(hyperparameter_tuning_snd degenerateTrainer degenerateTrainer.mileages
      [1] [1/10]).1, hfold]
    have hmean : degenerateTrainer.mean_km = 5 := by
      show npMean [5, 5] = 5
      norm_num [npMean]
    have hstd : degenerateTrainer.std_km = 0 := by
      show ratSqrt (sampleVar [5, 5]) = 0
      norm_num [sampleVar, npMean, ratSqrt]
    simp [model_to_json, update_hyperparameters, hmean, hstd]

/-- The optimizer step reads the trainer only through its sample set. -/
lemma gdStep_congr (t₁ t₂ : Trainer) (h : t₁.mileages = t₂.mileages)
    (prices : List ℚ) (learning_rate : ℚ) (theta : ℚ × ℚ) :
    gdStep t₁ prices learning_rate theta =
      gdStep t₂ prices learning_rate theta := by
  unfold gdStep calculate_gradient
  rw [h]

/-- The optimizer loop reads the trainer only through its sample set. -/
lemma gradient_descent_aux_congr (t₁ t₂ : Trainer)
    (h : t₁.mileages = t₂.mileages) (prices : List ℚ)
    (learning_rate convergence : ℚ) :
    ∀ (r : ℕ) (theta : ℚ × ℚ) (i : ℕ),
      gradient_descent_aux t₁ prices learning_rate convergence theta i r =
        gradient_descent_aux t₂ prices learning_rate convergence theta i r := by
  intro r
  induction r with
  | zero => intro theta i; rfl
  | succ r ih =>
    intro theta i
    rw [gradient_descent_aux_succ, gradient_descent_aux_succ,
      gdStep_congr t₁ t₂ h prices learning_rate theta]
    by_cases hc : convergence_threshold_reached
        (gdStep t₂ prices learning_rate theta) theta convergence
    · rw [if_pos hc, if_pos hc]
    · rw [if_neg hc, if_neg hc, ih]

/-- `gradient_descent` reads the trainer only through its sample set;
the best-result fields play no role in a run. -/
lemma gradient_descent_congr (t₁ t₂ : Trainer)
    (h : t₁.mileages = t₂.mileages) (m : DataFrame)
    (learning_rate convergence : ℚ) (iterations : ℕ) :
    gradient_descent t₁ m learning_rate convergence iterations =
      gradient_descent t₂ m learning_rate convergence iterations := by
  unfold gradient_descent
  exact gradient_descent_aux_congr t₁ t₂ h m.price learning_rate convergence
    iterations (0, 0) 0

/-- `update_hyperparameters` erases all previous best-result fields, so
its result depends only on the data fields of the trainer. -/
lemma update_hyperparameters_congr (t₁ t₂ : Trainer)
    (h1 : t₁.mileages = t₂.mileages) (h2 : t₁.mean_km = t₂.mean_km)
    (h3 : t₁.std_km = t₂.std_km) (iters : ℕ) (learning_rate convergence : ℚ)
    (theta : ℚ × ℚ) :
    update_hyperparameters t₁ iters learning_rate convergence theta =
      update_hyperparameters t₂ iters learning_rate convergence theta := by
  cases t₁
  cases t₂
  dsimp only at h1 h2 h3
  subst h1
  subst h2
  subst h3
  rfl

/-- Winning twice in a row keeps only the later winner's record. -/
lemma stateOf_stateOf (tr : Trainer) (m : DataFrame) (d e : ℚ × ℚ) :
    stateOf (stateOf tr m d) m e = stateOf tr m e := by
  have hgd : gradient_descent (stateOf tr m d) m e.1 e.2 500 =
      gradient_descent tr m e.1 e.2 500 :=
    gradient_descent_congr (stateOf tr m d) tr rfl m e.1 e.2 500
  show update_hyperparameters (stateOf tr m d)
      (gradient_descent (stateOf tr m d) m e.1 e.2 500).1 e.1 e.2
      (gradient_descent (stateOf tr m d) m e.1 e.2 500).2 = stateOf tr m e
  rw [hgd]
  exact update_hyperparameters_congr (stateOf tr m d) tr rfl rfl rfl _ _ _ _

/-- A grid-search step applied to a best-state coming from candidate `c₀`
is a plain comparison of iteration counts: the strictly better candidate
wins, ties keep `c₀`. -/
lemma tuningStep_stateOf (t : Trainer) (m : DataFrame) (c₀ d : ℚ × ℚ) :
    tuningStep m (stateOf t m c₀) d =
      if (gradient_descent t m d.1 d.2 500).1 <
          (gradient_descent t m c₀.1 c₀.2 500).1 then
        stateOf t m d
      else
        stateOf t m c₀ := by
  unfold tuningStep
  dsimp only
  rw [gradient_descent_congr (stateOf t m c₀) t rfl m d.1 d.2 500]
  by_cases h : (gradient_descent t m d.1 d.2 500).1 <
      (gradient_descent t m c₀.1 c₀.2 500).1
  · have hcast : (((gradient_descent t m d.1 d.2 500).1 : ℕ) : WithTop ℕ) <
        (stateOf t m c₀).best_iterations := by
      show (((gradient_descent t m d.1 d.2 500).1 : ℕ) : WithTop ℕ) <
        (((gradient_descent t m c₀.1 c₀.2 500).1 : ℕ) : WithTop ℕ)
      exact_mod_cast h
    rw [if_pos hcast, if_pos h]
    exact update_hyperparameters_congr (stateOf t m c₀) t rfl rfl rfl _ _ _ _
  · have hcast : ¬ (((gradient_descent t m d.1 d.2 500).1 : ℕ) : WithTop ℕ) <
        (stateOf t m c₀).best_iterations := by
      show ¬ (((gradient_descent t m d.1 d.2 500).1 : ℕ) : WithTop ℕ) <
        (((gradient_descent t m c₀.1 c₀.2 500).1 : ℕ) : WithTop ℕ)
      exact_mod_cast h
    rw [if_neg hcast, if_neg h]

/-- Against an infinite current best, any finite run wins: the first grid
step always installs the first candidate. -/
lemma tuningStep_top (t : Trainer) (m : DataFrame) (c : ℚ × ℚ)
    (h : t.best_iterations = ⊤) :
    tuningStep m t c = stateOf t m c := by
  have hcond : (((gradient_descent t m c.1 c.2 500).1 : ℕ) : WithTop ℕ) <
      t.best_iterations := by
    rw [h]
    exact_mod_cast WithTop.coe_lt_top (gradient_descent t m c.1 c.2 500).1
  unfold tuningStep
  dsimp only
  rw [if_pos hcond]
  rfl

/-- Folding the grid search from a best-state owned by candidate `c₀`
lands on the first candidate of `c₀ :: L` achieving the minimal iteration
count: every earlier candidate is strictly worse, every later one no
better. -/
lemma tuning_fold_first_argmin (t : Trainer) (m : DataFrame) :
    ∀ (L : List (ℚ × ℚ)) (c₀ : ℚ × ℚ),
      ∃ L₁ c L₂,
        c₀ :: L = L₁ ++ c :: L₂ ∧
        L.foldl (tuningStep m) (stateOf t m c₀) = stateOf t m c ∧
        (∀ d ∈ L₁, (gradient_descent t m c.1 c.2 500).1 <
          (gradient_descent t m d.1 d.2 500).1) ∧
        (∀ d ∈ L₂, (gradient_descent t m c.1 c.2 500).1 ≤
          (gradient_descent t m d.1 d.2 500).1) := by
  intro L
  induction L with
  | nil =>
    intro c₀
    exact ⟨[], c₀, [], rfl, rfl, by simp, by simp⟩
  | cons d L ih =>
    intro c₀
    rw [List.foldl_cons, tuningStep_stateOf]
    by_cases hd : (gradient_descent t m d.1 d.2 500).1 <
        (gradient_descent t m c₀.1 c₀.2 500).1
    · rw [if_pos hd]
      obtain ⟨L₁, c, L₂, hdec, hfold, hstrict, hge⟩ := ih d
      have hcd : (gradient_descent t m c.1 c.2 500).1 ≤
          (gradient_descent t m d.1 d.2 500).1 := by
        cases L₁ with
        | nil =>
          obtain ⟨h1, _⟩ := List.cons.injEq d L c L₂ ▸ hdec
          exact le_of_eq (by rw [h1])
        | cons a L₁' =>
          have had : d = a ∧ L = L₁' ++ c :: L₂ := by
            simpa using hdec
          exact le_of_lt (hstrict d (had.1 ▸ List.mem_cons_self a L₁'))
      refine ⟨c₀ :: L₁, c, L₂, ?_, hfold, ?_, hge⟩
      · rw [List.cons_append, ← hdec]
      · intro e he
        rcases List.mem_cons.mp he with he | he
        · subst he
          exact lt_of_le_of_lt hcd hd
        · exact hstrict e he
    · rw [if_neg hd]
      obtain ⟨L₁, c, L₂, hdec, hfold, hstrict, hge⟩ := ih c₀
      cases L₁ with
      | nil =>
        have hc : c₀ = c ∧ L = L₂ := by simpa using hdec
        obtain ⟨hc1, hc2⟩ := hc
        refine ⟨[], c₀, d :: L, rfl, ?_, by simp, ?_⟩
        · rw [hfold, ← hc1]
        · intro e he
          rcases List.mem_cons.mp he with he | he
          · subst he
            exact le_of_not_lt hd
          · have := hge e (hc2 ▸ he)
            rw [← hc1] at this
            exact this
      | cons a L₁' =>
        have had : c₀ = a ∧ L = L₁' ++ c :: L₂ := by simpa using hdec
        obtain ⟨ha1, ha2⟩ := had
        subst ha1
        have hcc0 : (gradient_descent t m c.1 c.2 500).1 <
            (gradient_descent t m c₀.1 c₀.2 500).1 :=
          hstrict c₀ (List.mem_cons_self c₀ L₁')
        refine ⟨c₀ :: d :: L₁', c, L₂, ?_, hfold, ?_, hge⟩
        · rw [ha2]
          rfl
        · intro e he
          rcases List.mem_cons.mp he with he | he
          · subst he
            exact hcc0
          rcases List.mem_cons.mp he with he | he
          · subst he
            exact lt_of_lt_of_le hcc0 (le_of_not_lt hd)
          · exact hstrict e (List.mem_cons_of_mem c₀ he)

/-- Nonempty candidate lists give a nonempty grid. -/
lemma gridCandidates_ne_nil (lrs cts : List ℚ) (h1 : lrs ≠ []) (h2 : cts ≠ []) :
    gridCandidates lrs cts ≠ [] := by
  cases lrs with
  | nil => exact absurd rfl h1
  | cons lr lrs =>
    cases cts with
    | nil => exact absurd rfl h2
    | cons ct cts => simp [gridCandidates]

/-- C3: starting from the initial infinite best, `hyperparameter_tuning`
evaluates the optimizer over the whole cartesian product (learning rates
outer, thresholds inner, in the supplied order) and retains exactly the
first candidate — in that evaluation order — achieving the minimal
iteration count: all earlier candidates are strictly worse (ties are
kept by the earlier candidate) and all later ones are no better. -/
theorem hyperparameter_tuning_first_argmin (t : Trainer) (m : DataFrame)
    (lrs cts : List ℚ) (hlrs : lrs ≠ []) (hcts : cts ≠ [])
    (htop : t.best_iterations = ⊤) :
    ∃ L₁ c L₂,
      gridCandidates lrs cts = L₁ ++ c :: L₂ ∧
      (hyperparameter_tuning t m lrs cts).1.best_learning_rate = some c.1 ∧
      (hyperparameter_tuning t m lrs cts).1.best_convergence_threshold =
        some c.2 ∧
      (hyperparameter_tuning t m lrs cts).1.best_iterations =
        ((gradient_descent t m c.1 c.2 500).1 : WithTop ℕ) ∧
      (hyperparameter_tuning t m lrs cts).1.best_theta =
        some (gradient_descent t m c.1 c.2 500).2 ∧
      (∀ d ∈ L₁, (gradient_descent t m c.1 c.2 500).1 <
        (gradient_descent t m d.1 d.2 500).1) ∧
      (∀ d ∈ L₂, (gradient_descent t m c.1 c.2 500).1 ≤
        (gradient_descent t m d.1 d.2 500).1) := by
  obtain ⟨c₁, rest, hL⟩ :=
    List.exists_cons_of_ne_nil (gridCandidates_ne_nil lrs cts hlrs hcts)
  rw [hyperparameter_tuning_fst, hL, List.foldl_cons,
    tuningStep_top t m c₁ htop]
  obtain ⟨L₁, c, L₂, hdec, hfold, hstrict, hge⟩ :=
    tuning_fold_first_argmin t m rest c₁
  rw [hfold]
  exact ⟨L₁, c, L₂, hdec, rfl, rfl, rfl, rfl, hstrict, hge⟩

/-- Witness for C3 at a concrete input: the demo trainer (fresh best
state) with singleton candidate lists. -/
theorem hyperparameter_tuning_first_argmin_witness :
    ∃ L₁ c L₂,
      gridCandidates [(1 : ℚ)/2] [(1 : ℚ)/3] = L₁ ++ c :: L₂ ∧
      (hyperparameter_tuning demoTrainer demoTrainer.mileages
        [(1 : ℚ)/2] [(1 : ℚ)/3]).1.best_learning_rate = some c.1 ∧
      (hyperparameter_tuning demoTrainer demoTrainer.mileages
        [(1 : ℚ)/2] [(1 : ℚ)/3]).1.best_convergence_threshold = some c.2 ∧
      (hyperparameter_tuning demoTrainer demoTrainer.mileages
        [(1 : ℚ)/2] [(1 : ℚ)/3]).1.best_iterations =
        ((gradient_descent demoTrainer demoTrainer.mileages c.1 c.2 500).1 :
          WithTop ℕ) ∧
      (hyperparameter_tuning demoTrainer demoTrainer.mileages
        [(1 : ℚ)/2] [(1 : ℚ)/3]).1.best_theta =
        some (gradient_descent demoTrainer demoTrainer.mileages c.1 c.2
          500).2 ∧
      (∀ d ∈ L₁,
        (gradient_descent demoTrainer demoTrainer.mileages c.1 c.2 500).1 <
          (gradient_descent demoTrainer demoTrainer.mileages d.1 d.2 500).1) ∧
      (∀ d ∈ L₂,
        (gradient_descent demoTrainer demoTrainer.mileages c.1 c.2 500).1 ≤
          (gradient_descent demoTrainer demoTrainer.mileages d.1 d.2 500).1) :=
  hyperparameter_tuning_first_argmin demoTrainer demoTrainer.mileages
    [(1 : ℚ)/2] [(1 : ℚ)/3] (by simp) (by simp) rfl

/-- When the new run is not strictly better, the grid step leaves the
trainer completely unchanged. -/
lemma tuningStep_unchanged (m : DataFrame) (tr : Trainer) (c : ℚ × ℚ)
    (h : ¬ ((gradient_descent tr m c.1 c.2 500).1 : WithTop ℕ) <
      tr.best_iterations) :
    tuningStep m tr c = tr := by
  unfold tuningStep
  dsimp only
  rw [if_neg h]

/-- One grid step never increases `best_iterations`. -/
lemma tuningStep_best_le (m : DataFrame) (tr : Trainer) (c : ℚ × ℚ) :
    (tuningStep m tr c).best_iterations ≤ tr.best_iterations := by
  unfold tuningStep
  dsimp only
  by_cases h : ((gradient_descent tr m c.1 c.2 500).1 : WithTop ℕ) <
      tr.best_iterations
  · rw [if_pos h]
    exact le_of_lt h
  · rw [if_neg h]

/-- Folding grid steps never increases `best_iterations`. -/
lemma foldl_tuningStep_best_le (m : DataFrame) :
    ∀ (L : List (ℚ × ℚ)) (tr : Trainer),
      (L.foldl (tuningStep m) tr).best_iterations ≤ tr.best_iterations := by
  intro L
  induction L with
  | nil => intro tr; exact le_rfl
  | cons c L ih =>
    intro tr
    exact le_trans (ih (tuningStep m tr c)) (tuningStep_best_le m tr c)

/-- A grid-search fold either returns the trainer untouched or installs,
atomically, the record of some evaluated candidate that was strictly
better than the incoming best. -/
lemma foldl_tuningStep_unchanged_or_updated (m : DataFrame) :
    ∀ (L : List (ℚ × ℚ)) (tr : Trainer),
      L.foldl (tuningStep m) tr = tr ∨
      ∃ c ∈ L, L.foldl (tuningStep m) tr = stateOf tr m c ∧
        ((gradient_descent tr m c.1 c.2 500).1 : WithTop ℕ) <
          tr.best_iterations := by
  intro L
  induction L with
  | nil => intro tr; exact Or.inl rfl
  | cons d L ih =>
    intro tr
    rw [List.foldl_cons]
    by_cases h : ((gradient_descent tr m d.1 d.2 500).1 : WithTop ℕ) <
        tr.best_iterations
    · have hstep : tuningStep m tr d = stateOf tr m d := by
        unfold tuningStep
        dsimp only
        rw [if_pos h]
        rfl
      rw [hstep]
      rcases ih (stateOf tr m d) with h2 | ⟨e, he, h2, h3⟩
      · right
        exact ⟨d, List.mem_cons_self d L, h2, h⟩
      · right
        refine ⟨e, List.mem_cons_of_mem d he, ?_, ?_⟩
        · rw [h2, stateOf_stateOf]
        · have hgd := gradient_descent_congr (stateOf tr m d) tr rfl m e.1
            e.2 500
          rw [hgd] at h3
          exact lt_trans h3 h
    · rw [tuningStep_unchanged m tr d h]
      rcases ih tr with h2 | ⟨e, he, h2, h3⟩
      · exact Or.inl h2
      · exact Or.inr ⟨e, List.mem_cons_of_mem d he, h2, h3⟩

/-- C7: the best-result state starts (at construction) with
`best_iterations = ∞` and no theta; across a whole search it never gets
worse; it is either left completely untouched or replaced — all four
fields together — by the record of an evaluated candidate that achieved
strictly fewer iterations; and along the run (any split of the grid into
a prefix and a suffix) `best_iterations` never increases. -/
theorem best_state_invariant (t : Trainer) (m data : DataFrame)
    (lrs cts : List ℚ) :
    ((Trainer.init data).best_iterations = ⊤ ∧
      (Trainer.init data).best_theta = none) ∧
    (hyperparameter_tuning t m lrs cts).1.best_iterations ≤
      t.best_iterations ∧
    ((hyperparameter_tuning t m lrs cts).1 = t ∨
      ∃ c ∈ gridCandidates lrs cts,
        (hyperparameter_tuning t m lrs cts).1.best_iterations <
          t.best_iterations ∧
        (hyperparameter_tuning t m lrs cts).1.best_iterations =
          ((gradient_descent t m c.1 c.2 500).1 : WithTop ℕ) ∧
        (hyperparameter_tuning t m lrs cts).1.best_learning_rate =
          some c.1 ∧
        (hyperparameter_tuning t m lrs cts).1.best_convergence_threshold =
          some c.2 ∧
        (hyperparameter_tuning t m lrs cts).1.best_theta =
          some (gradient_descent t m c.1 c.2 500).2) ∧
    (∀ L₁ L₂, gridCandidates lrs cts = L₁ ++ L₂ →
      ((L₁ ++ L₂).foldl (tuningStep m) t).best_iterations ≤
        (L₁.foldl (tuningStep m) t).best_iterations) := by
  refine ⟨⟨rfl, rfl⟩, ?_, ?_, ?_⟩
  · rw [hyperparameter_tuning_fst]
    exact foldl_tuningStep_best_le m (gridCandidates lrs cts) t
  · rw [hyperparameter_tuning_fst]
    rcases foldl_tuningStep_unchanged_or_updated m (gridCandidates lrs cts) t
      with h | ⟨c, hc, h2, h3⟩
    · exact Or.inl h
    · refine Or.inr ⟨c, hc, ?_, ?_, ?_, ?_, ?_⟩
      · rw [h2]
        exact h3
      · rw [h2]
        rfl
      · rw [h2]
        rfl
      · rw [h2]
        rfl
      · rw [h2]
        rfl
  · intro L₁ L₂ _
    rw [List.foldl_append]
    exact foldl_tuningStep_best_le m L₂ (L₁.foldl (tuningStep m) t)

/-- Witness for C7 at a concrete input: the demo trainer with singleton
candidate lists. -/
theorem best_state_invariant_witness :
    (((Trainer.init demoTrainer.mileages).best_iterations = ⊤ ∧
      (Trainer.init demoTrainer.mileages).best_theta = none) ∧
    (hyperparameter_tuning demoTrainer demoTrainer.mileages
      [(1 : ℚ)/2] [(1 : ℚ)/3]).1.best_iterations ≤
      demoTrainer.best_iterations ∧
    ((hyperparameter_tuning demoTrainer demoTrainer.mileages
        [(1 : ℚ)/2] [(1 : ℚ)/3]).1 = demoTrainer ∨
      ∃ c ∈ gridCandidates [(1 : ℚ)/2] [(1 : ℚ)/3],
        (hyperparameter_tuning demoTrainer demoTrainer.mileages
          [(1 : ℚ)/2] [(1 : ℚ)/3]).1.best_iterations <
          demoTrainer.best_iterations ∧
        (hyperparameter_tuning demoTrainer demoTrainer.mileages
          [(1 : ℚ)/2] [(1 : ℚ)/3]).1.best_iterations =
          ((gradient_descent demoTrainer demoTrainer.mileages c.1 c.2
            500).1 : WithTop ℕ) ∧
        (hyperparameter_tuning demoTrainer demoTrainer.mileages
          [(1 : ℚ)/2] [(1 : ℚ)/3]).1.best_learning_rate = some c.1 ∧
        (hyperparameter_tuning demoTrainer demoTrainer.mileages
          [(1 : ℚ)/2] [(1 : ℚ)/3]).1.best_convergence_threshold =
          some c.2 ∧
        (hyperparameter_tuning demoTrainer demoTrainer.mileages
          [(1 : ℚ)/2] [(1 : ℚ)/3]).1.best_theta =
          some (gradient_descent demoTrainer demoTrainer.mileages c.1 c.2
            500).2) ∧
    (∀ L₁ L₂, gridCandidates [(1 : ℚ)/2] [(1 : ℚ)/3] = L₁ ++ L₂ →
      ((L₁ ++ L₂).foldl (tuningStep demoTrainer.mileages)
        demoTrainer).best_iterations ≤
        (L₁.foldl (tuningStep demoTrainer.mileages)
          demoTrainer).best_iterations)) :=
  best_state_invariant demoTrainer demoTrainer.mileages demoTrainer.mileages
    [(1 : ℚ)/2] [(1 : ℚ)/3]
